import Mathlib

/-!
# Verification of the invoice-qc service core

Shallow embedding of the `invoice_qc` Python package
(`schema.py`, `extractor.py`, `validator.py`) and proofs about it.

Modelling conventions:
* Python `float` amounts are modelled as `ℚ` (the spec treats them as decimals);
* Python strings are modelled as Lean `String` / `List Char`;
* `None`-able values are `Option`;
* functions keep the names of their Python sources where Lean allows it.
-/

namespace InvoiceQC

/-! ## Generic string helpers (models of Python str primitives) -/

/-- Model of Python `str.strip()` on a character list (trim whitespace at both ends). -/
def pyStrip (s : List Char) : List Char :=
  ((s.dropWhile Char.isWhitespace).reverse.dropWhile Char.isWhitespace).reverse

/-- Model of Python `str.strip(chars)`: trim any of the given characters at both ends. -/
def pyStripSet (set : List Char) (s : List Char) : List Char :=
  ((s.dropWhile (fun c => set.contains c)).reverse.dropWhile
    (fun c => set.contains c)).reverse

/-- ASCII lowercase of a character list, model of Python `str.lower()`. -/
def pyLower (s : List Char) : List Char := s.map Char.toLower

/-- `listStartsWith needle hay` is true when `needle` is an initial segment of `hay`. -/
def listStartsWith : List Char → List Char → Bool
  | [], _ => true
  | _ :: _, [] => false
  | a :: as, b :: bs => a = b && listStartsWith as bs

/-- Model of Python `needle in hay` substring containment. -/
def containsSub (needle : List Char) : List Char → Bool
  | [] => needle.isEmpty
  | c :: cs => listStartsWith needle (c :: cs) || containsSub needle cs

/-- Model of Python `s.split(sep)` for a single-character separator. -/
def splitOnChar (sep : Char) : List Char → List (List Char)
  | [] => [[]]
  | c :: cs =>
    let rest := splitOnChar sep cs
    if c = sep then [] :: rest
    else
      match rest with
      | [] => [[c]]
      | r :: rs => (c :: r) :: rs

/-- Model of Python `str.splitlines()` for newline-separated text
(agrees with Python after blank lines are filtered out, which all callers do). -/
def splitLines (s : List Char) : List (List Char) := splitOnChar '\n' s

/-- Numeric value of a list of decimal digit characters (empty list gives 0). -/
def digitsVal (ds : List Char) : Nat :=
  ds.foldl (fun a c => a * 10 + (c.toNat - 48)) 0

/-! ## Model of Python `float(str)` on the restricted alphabet

After `normalize_number`'s cleaning, the string fed to `float` contains only
digits, `.` and `-`.  On that alphabet, Python's `float` accepts an optional
leading minus sign followed by digits with at most one decimal point and at
least one digit overall, and rejects anything else. -/

/-- Parse the unsigned body: digits, optionally one `.`, at least one digit. -/
def pyFloatBody (cs : List Char) : Option ℚ :=
  let intDigits := cs.takeWhile Char.isDigit
  let rest := cs.dropWhile Char.isDigit
  match rest with
  | [] => if intDigits.isEmpty then none else some (digitsVal intDigits : ℚ)
  | '.' :: rest2 =>
    let fracDigits := rest2.takeWhile Char.isDigit
    let rest3 := rest2.dropWhile Char.isDigit
    if rest3.isEmpty then
      if intDigits.isEmpty && fracDigits.isEmpty then none
      else some ((digitsVal intDigits : ℚ) +
        (digitsVal fracDigits : ℚ) / ((10 : ℚ) ^ fracDigits.length))
    else none
  | _ => none

/-- Model of Python `float(str)` restricted to strings over digits, `.`, `-`. -/
def pyFloat (cs : List Char) : Option ℚ :=
  match cs with
  | '-' :: rest => (pyFloatBody rest).map (fun q => -q)
  | _ => pyFloatBody cs

/-! ## extractor.py: `normalize_number` -/

/-- The characters kept by `re.sub(r"[^\d,.\-]", "", s)`. -/
def keepNumChar (c : Char) : Bool := c.isDigit || c = ',' || c = '.' || c = '-'

/-- The `de` branch of `normalize_number`: when the cleaned string contains a
comma, `parts = s.split(",")`, `integer_part = "".join(parts[:-1]).replace(".", "")`,
`decimal_part = parts[-1]`, giving `integer_part + "." + decimal_part`;
with no comma, all periods are removed. -/
def deNormalize (s : List Char) : List Char :=
  if 1 ≤ s.count ',' then
    (((splitOnChar ',' s).dropLast.flatten).filter (fun c => !(c = '.'))) ++
      '.' :: (splitOnChar ',' s).getLastD []
  else s.filter (fun c => !(c = '.'))

/-- Embedding of `extractor.normalize_number` (extractor.py lines 80-107):
return no value on the empty string, otherwise strip, drop everything but
digits/comma/period/minus, apply the language-specific comma/period handling
(`de` via `deNormalize`, any other tag removes the commas), and parse as a
float. -/
def normalize_number (num_str : String) (lang : String) : Option ℚ :=
  if num_str = "" then none
  else
    pyFloat
      (if lang = "de" then deNormalize ((pyStrip num_str.data).filter keepNumChar)
       else ((pyStrip num_str.data).filter keepNumChar).filter (fun c => !(c = ',')))

/-! ### Claim-side description of `normalize_number` (for the C2 refinement)

The claim describes `normalize_number` in terms of the LAST comma of the
cleaned string, rather than in terms of `split(",")`.  We formalise that
description separately and prove it coincides with the source embedding. -/

/-- Split a character list around its LAST comma, if any:
`some (before, after)` with `s = before ++ ',' :: after` and no comma in `after`. -/
def splitAtLastComma : List Char → Option (List Char × List Char)
  | [] => none
  | c :: cs =>
    match splitAtLastComma cs with
    | some (b, a) => some (c :: b, a)
    | none => if c = ',' then some ([], cs) else none

/-- The `de` branch as the claim words it: the characters before the LAST
comma, with the periods (and separating commas) removed, followed by a period
and the characters after the last comma; with no comma, all periods removed. -/
def deNormalizeClaim (s : List Char) : List Char :=
  match splitAtLastComma s with
  | some (b, a) => (b.filter (fun c => !(c = '.' || c = ','))) ++ '.' :: a
  | none => s.filter (fun c => !(c = '.'))

/-- `normalize_number` as the C2 claim words it: strip all characters except
digits, comma, period, minus; for `de` treat the last comma as the decimal
separator, dropping the periods (and the separating commas) before it, or with
no comma strip all periods; for `en` strip all commas; parse the result,
yielding no value when it does not parse. -/
def normalize_number_claim (num_str : String) (lang : String) : Option ℚ :=
  pyFloat
    (if lang = "de" then deNormalizeClaim ((pyStrip num_str.data).filter keepNumChar)
     else ((pyStrip num_str.data).filter keepNumChar).filter (fun c => !(c = ',')))

/-! ## schema.py: `InvoiceLineItem` and its `compute_line_total` validator -/

/-- Embedding of the `InvoiceLineItem` Pydantic model (schema.py lines 16-49). -/
structure InvoiceLineItem where
  description : Option String
  quantity : Option ℚ
  unit_price : Option ℚ
  line_total : Option ℚ
deriving Repr, DecidableEq

/-- Embedding of the `compute_line_total` Pydantic validator
(schema.py lines 34-49): keep an explicit `line_total`, otherwise derive
`quantity * unit_price` when both are present, otherwise leave it absent. -/
def compute_line_total (v : Option ℚ) (quantity unit_price : Option ℚ) : Option ℚ :=
  match v with
  | some t => some t
  | none =>
    match quantity, unit_price with
    | some q, some p => some (q * p)
    | _, _ => none

/-- Construction of an `InvoiceLineItem`, which (as in Pydantic) runs the
`compute_line_total` validator exactly once, at construction. -/
def mkInvoiceLineItem (description : Option String)
    (quantity unit_price line_total : Option ℚ) : InvoiceLineItem :=
  { description := description
    quantity := quantity
    unit_price := unit_price
    line_total := compute_line_total line_total quantity unit_price }

/-! ## Support lemmas for the C2 refinement -/

lemma splitOnChar_ne_nil (sep : Char) (s : List Char) : splitOnChar sep s ≠ [] := by
  cases s with
  | nil => simp [splitOnChar]
  | cons c cs =>
    simp only [splitOnChar]
    split
    · simp
    · rcases h : splitOnChar sep cs with _ | ⟨r, rs⟩ <;> simp

lemma length_splitOnChar (sep : Char) (s : List Char) :
    (splitOnChar sep s).length = s.count sep + 1 := by
  induction s with
  | nil => simp [splitOnChar]
  | cons c cs ih =>
    simp only [splitOnChar, List.count_cons]
    by_cases hc : c = sep
    · simp [hc, ih]
    · rcases h : splitOnChar sep cs with _ | ⟨r, rs⟩
      · exact absurd h (splitOnChar_ne_nil sep cs)
      · rw [h] at ih
        simp only [List.length_cons] at ih
        simp [hc, ih, beq_iff_eq]

lemma splitOnChar_of_count_zero (sep : Char) (s : List Char) (h : s.count sep = 0) :
    splitOnChar sep s = [s] := by
  induction s with
  | nil => simp [splitOnChar]
  | cons c cs ih =>
    have hc : ¬ c = sep := by
      intro hc; subst hc; simp [List.count_cons] at h
    have hcs : cs.count sep = 0 := by
      simp [List.count_cons] at h; omega
    simp only [splitOnChar, if_neg hc, ih hcs]

/-- `splitAtLastComma` returns `none` exactly when the list has no comma. -/
lemma splitAtLastComma_eq_none_iff (s : List Char) :
    splitAtLastComma s = none ↔ s.count ',' = 0 := by
  induction s with
  | nil => simp [splitAtLastComma]
  | cons c cs ih =>
    simp only [splitAtLastComma, List.count_cons]
    rcases h : splitAtLastComma cs with _ | ⟨b, a⟩
    · rw [h] at ih
      have hcs : cs.count ',' = 0 := ih.mp rfl
      by_cases hc : c = ','
      · simp [hc, hcs]
      · simp [hc, hcs]
    · rw [h] at ih
      have hcs : ¬ cs.count ',' = 0 := by
        intro h0
        exact absurd (ih.mpr h0) (by simp)
      constructor
      · intro habs; cases habs
      · intro h0
        exfalso
        apply hcs
        by_cases hc : c = ','
        · simp [hc] at h0
        · simp [hc] at h0; omega

/-- Relation between `split(",")` (as the source uses) and the last-comma view
(as the claim words it): the joined parts before the last part are exactly the
characters before the last comma with the commas removed, and the last part is
exactly the suffix after the last comma. -/
lemma splitOnChar_cons_self (sep : Char) (cs : List Char) :
    splitOnChar sep (sep :: cs) = [] :: splitOnChar sep cs := by
  simp [splitOnChar]

lemma splitOnChar_cons_ne (sep c : Char) (cs : List Char) (h : ¬ c = sep)
    (r : List Char) (rs : List (List Char)) (hr : splitOnChar sep cs = r :: rs) :
    splitOnChar sep (c :: cs) = (c :: r) :: rs := by
  simp [splitOnChar, h, hr]

lemma splitOnChar_splitAtLastComma (s : List Char) (b a : List Char)
    (h : splitAtLastComma s = some (b, a)) :
    ((splitOnChar ',' s).dropLast.flatten = b.filter (fun c => !(c = ','))) ∧
      (splitOnChar ',' s).getLastD [] = a := by
  induction s generalizing b a with
  | nil => simp [splitAtLastComma] at h
  | cons c cs ih =>
    simp only [splitAtLastComma] at h
    rcases hcs : splitAtLastComma cs with _ | ⟨b', a'⟩
    · rw [hcs] at h
      by_cases hc : c = ','
      · subst hc
        rw [if_pos rfl] at h
        simp only [Option.some.injEq, Prod.mk.injEq] at h
        obtain ⟨hb, ha⟩ := h
        subst hb; subst ha
        have hnc : cs.count ',' = 0 := (splitAtLastComma_eq_none_iff cs).mp hcs
        have hsplit : splitOnChar ',' cs = [cs] :=
          splitOnChar_of_count_zero ',' cs hnc
        simp [splitOnChar, hsplit]
      · rw [if_neg hc] at h; cases h
    · rw [hcs] at h
      simp only [Option.some.injEq, Prod.mk.injEq] at h
      obtain ⟨hb, ha⟩ := h
      subst hb; subst ha
      obtain ⟨ih1, ih2⟩ := ih b' a' hcs
      have hcnt : 1 ≤ cs.count ',' := by
        by_contra hlt
        have h0 : cs.count ',' = 0 := by omega
        rw [(splitAtLastComma_eq_none_iff cs).mpr h0] at hcs; cases hcs
      have hlen : 2 ≤ (splitOnChar ',' cs).length := by
        rw [length_splitOnChar]; omega
      rcases hrest : splitOnChar ',' cs with _ | ⟨r, rs⟩
      · exact absurd hrest (splitOnChar_ne_nil ',' cs)
      · rcases rs with _ | ⟨r2, rs2⟩
        · rw [hrest] at hlen; simp at hlen
        · rw [hrest] at ih1 ih2
          by_cases hc : c = ','
          · subst hc
            rw [splitOnChar_cons_self ',' cs, hrest]
            refine ⟨?_, ?_⟩
            · rw [List.dropLast_cons_of_ne_nil (by simp : r :: r2 :: rs2 ≠ [])]
              simpa using ih1
            · simpa [List.getLastD_cons] using ih2
          · rw [splitOnChar_cons_ne ',' c cs hc r (r2 :: rs2) hrest]
            refine ⟨?_, ?_⟩
            · rw [List.dropLast_cons_of_ne_nil (by simp : r2 :: rs2 ≠ [])] at ih1 ⊢
              simp only [List.flatten_cons] at ih1 ⊢
              simp [List.filter_cons, hc, ih1]
            · simpa [List.getLastD_cons] using ih2

/-- The count of commas is positive exactly when the last-comma split succeeds. -/
lemma count_comma_pos_iff (s : List Char) :
    1 ≤ s.count ',' ↔ splitAtLastComma s ≠ none := by
  rw [Ne, splitAtLastComma_eq_none_iff]
  omega

lemma pyFloat_nil : pyFloat [] = none := rfl

/-- Evaluation of the model of `float` on the cleaned string `"1285.20"`. -/
lemma pyFloat_1285_20 : pyFloat "1285.20".data = some (1285.2 : ℚ) := by
  have key : pyFloat "1285.20".data =
      some ((digitsVal ("1285.20".data.takeWhile Char.isDigit) : ℚ) +
        (digitsVal (("1285.20".data.dropWhile Char.isDigit).tail.takeWhile
          Char.isDigit) : ℚ) /
          (10 : ℚ) ^ (("1285.20".data.dropWhile Char.isDigit).tail.takeWhile
            Char.isDigit).length) := rfl
  rw [key]
  have d1 : digitsVal ("1285.20".data.takeWhile Char.isDigit) = 1285 := by decide
  have d2 : digitsVal (("1285.20".data.dropWhile Char.isDigit).tail.takeWhile
      Char.isDigit) = 20 := by decide
  have dl : (("1285.20".data.dropWhile Char.isDigit).tail.takeWhile
      Char.isDigit).length = 2 := by decide
  rw [d1, d2, dl]
  norm_num

/-- C2: for every input string and language tag, `normalize_number` strips all
characters except digits, comma, period, minus, then for `de` treats the last
comma as the decimal separator (removing the periods and separating commas
before it) or, with no comma, strips all periods, and for `en` (and any other
tag) strips all commas; it returns the resulting parsed number, or no value
(never raising) when the cleaned string does not parse — in particular
`normalize_number "1.285,20" "de" = 1285.20` and
`normalize_number "1,285.20" "en" = 1285.20`. -/
theorem normalize_number_matches_claim :
    (∀ (s lang : String), normalize_number s lang = normalize_number_claim s lang) ∧
      normalize_number "1.285,20" "de" = some (1285.2 : ℚ) ∧
      normalize_number "1,285.20" "en" = some (1285.2 : ℚ) := by
  have hde : ∀ cl : List Char, deNormalize cl = deNormalizeClaim cl := by
    intro cl
    unfold deNormalize deNormalizeClaim
    by_cases hcnt : 1 ≤ cl.count ','
    · rw [if_pos hcnt]
      have hne : splitAtLastComma cl ≠ none := (count_comma_pos_iff cl).mp hcnt
      rcases hsplit : splitAtLastComma cl with _ | ⟨b, a⟩
      · exact absurd hsplit hne
      · obtain ⟨h1, h2⟩ := splitOnChar_splitAtLastComma cl b a hsplit
        rw [h1, h2, List.filter_filter]
        congr 1
        apply List.filter_congr
        intro x _
        by_cases hx1 : x = '.' <;> by_cases hx2 : x = ',' <;> simp [hx1, hx2]
    · rw [if_neg hcnt]
      have h0 : cl.count ',' = 0 := by omega
      rw [(splitAtLastComma_eq_none_iff cl).mpr h0]
  refine ⟨fun s lang => ?_,
    by
      have key : normalize_number "1.285,20" "de" = pyFloat "1285.20".data := rfl
      rw [key, pyFloat_1285_20],
    by
      have key : normalize_number "1,285.20" "en" = pyFloat "1285.20".data := rfl
      rw [key, pyFloat_1285_20]⟩
  by_cases hs : s = ""
  · subst hs
    have h1 : normalize_number "" lang = none := by
      rw [normalize_number, if_pos rfl]
    rw [h1, normalize_number_claim]
    have hclean : (pyStrip ("" : String).data).filter keepNumChar = [] := rfl
    rw [hclean]
    by_cases hl : lang = "de"
    · rw [if_pos hl]
      have : deNormalizeClaim [] = [] := rfl
      rw [this, pyFloat_nil]
    · rw [if_neg hl]
      have : ([] : List Char).filter (fun c => !(c = ',')) = [] := rfl
      rw [this, pyFloat_nil]
  · rw [normalize_number, normalize_number_claim, if_neg hs]
    by_cases hl : lang = "de"
    · rw [if_pos hl, if_pos hl, hde]
    · rw [if_neg hl, if_neg hl]

/-- C7: a `LineItem` constructed with `quantity` and `unit_price` present but
`line_total` absent gets `line_total = quantity * unit_price` (e.g. 3 and 10
give 30); an explicit `line_total` is always kept unchanged (e.g. 5 stays 5).
The Lean structure is immutable, matching "never re-derived after
construction": `compute_line_total` runs exactly once, inside
`mkInvoiceLineItem`. -/
theorem line_total_derivation :
    (∀ (d : Option String) (q p : ℚ),
        (mkInvoiceLineItem d (some q) (some p) none).line_total = some (q * p)) ∧
      (∀ (d : Option String) (q p : Option ℚ) (t : ℚ),
        (mkInvoiceLineItem d q p (some t)).line_total = some t) ∧
      (mkInvoiceLineItem (some "example") (some 3) (some 10) none).line_total
        = some 30 ∧
      (mkInvoiceLineItem (some "example") (some 3) (some 10) (some 5)).line_total
        = some 5 := by
  refine ⟨fun d q p => rfl, fun d q p t => rfl,
    by norm_num [mkInvoiceLineItem, compute_line_total], rfl⟩

/-! ## validator.py: date parsing (`_parse_maybe_date`)

`datetime.strptime` against the five formats of validator.py line 47 is
modelled by a backtracking parser following CPython's `_strptime` regexes
(`%Y` = four digits, `%m` = `1[0-2]|0[1-9]|[1-9]`,
`%d` = `3[01]|[12]\d|0[1-9]|[1-9]`, full match required), followed by the
`datetime` calendar-validity check. -/

/-- An invoice-date value: either an already-parsed date (the `date`/`datetime`
branches of `_parse_maybe_date`) or a raw string still to be parsed. -/
inductive DateVal where
  | parsed (y m d : Nat)
  | raw (s : String)
deriving Repr, DecidableEq

/-- Number of days in a Gregorian month, as `datetime.date` validates it. -/
def daysInMonth (y m : Nat) : Nat :=
  if m = 2 then
    if (y % 4 = 0 ∧ ¬ y % 100 = 0) ∨ y % 400 = 0 then 29 else 28
  else if m = 4 ∨ m = 6 ∨ m = 9 ∨ m = 11 then 30 else 31

/-- `datetime.date(y, m, d)` succeeds exactly on these triples. -/
def validDate (y m d : Nat) : Bool :=
  1 ≤ y ∧ y ≤ 9999 ∧ 1 ≤ m ∧ m ≤ 12 ∧ 1 ≤ d ∧ d ≤ daysInMonth y m

/-- `%Y`: exactly four digits. -/
def parseY : List Char → Option (Nat × List Char)
  | a :: b :: c :: d :: rest =>
    if a.isDigit ∧ b.isDigit ∧ c.isDigit ∧ d.isDigit then
      some (digitsVal [a, b, c, d], rest)
    else none
  | _ => none

/-- `%m` alternatives `1[0-2] | 0[1-9] | [1-9]`, in regex alternation order. -/
def monthCands (s : List Char) : List (Nat × List Char) :=
  (match s with
   | '1' :: c :: rest =>
     if '0' ≤ c ∧ c ≤ '2' then [(10 + (c.toNat - 48), rest)] else []
   | _ => []) ++
  (match s with
   | '0' :: c :: rest =>
     if '1' ≤ c ∧ c ≤ '9' then [(c.toNat - 48, rest)] else []
   | _ => []) ++
  (match s with
   | c :: rest => if '1' ≤ c ∧ c ≤ '9' then [(c.toNat - 48, rest)] else []
   | _ => [])

/-- `%d` alternatives `3[01] | [12]\d | 0[1-9] | [1-9]`, in alternation order. -/
def dayCands (s : List Char) : List (Nat × List Char) :=
  (match s with
   | '3' :: c :: rest =>
     if c = '0' ∨ c = '1' then [(30 + (c.toNat - 48), rest)] else []
   | _ => []) ++
  (match s with
   | c1 :: c2 :: rest =>
     if (c1 = '1' ∨ c1 = '2') ∧ c2.isDigit then
       [((c1.toNat - 48) * 10 + (c2.toNat - 48), rest)]
     else []
   | _ => []) ++
  (match s with
   | '0' :: c :: rest =>
     if '1' ≤ c ∧ c ≤ '9' then [(c.toNat - 48, rest)] else []
   | _ => []) ++
  (match s with
   | c :: rest => if '1' ≤ c ∧ c ≤ '9' then [(c.toNat - 48, rest)] else []
   | _ => [])

/-- Regex-style ordered alternation with backtracking into the continuation. -/
def tryCands (cands : List (Nat × List Char))
    (k : Nat → List Char → Option (Nat × Nat × Nat)) : Option (Nat × Nat × Nat) :=
  match cands with
  | [] => none
  | (v, rest) :: more =>
    match k v rest with
    | some r => some r
    | none => tryCands more k

/-- A literal separator character in a date format. -/
def parseSep (sep : Char) : List Char → Option (List Char)
  | c :: rest => if c = sep then some rest else none
  | [] => none

/-- Full match of a `%Y sep %m sep %d` format. -/
def parseYMD (sep : Char) (s : List Char) : Option (Nat × Nat × Nat) :=
  match parseY s with
  | none => none
  | some (y, r1) =>
    match parseSep sep r1 with
    | none => none
    | some r2 =>
      tryCands (monthCands r2) fun m r3 =>
        match parseSep sep r3 with
        | none => none
        | some r4 =>
          tryCands (dayCands r4) fun d r5 =>
            if r5.isEmpty then some (y, m, d) else none

/-- Full match of a `%d sep %m sep %Y` format. -/
def parseDMY (sep : Char) (s : List Char) : Option (Nat × Nat × Nat) :=
  tryCands (dayCands s) fun d r1 =>
    match parseSep sep r1 with
    | none => none
    | some r2 =>
      tryCands (monthCands r2) fun m r3 =>
        match parseSep sep r3 with
        | none => none
        | some r4 =>
          match parseY r4 with
          | none => none
          | some (y, r5) => if r5.isEmpty then some (y, m, d) else none

/-- Full match of a `%m sep %d sep %Y` format. -/
def parseMDY (sep : Char) (s : List Char) : Option (Nat × Nat × Nat) :=
  tryCands (monthCands s) fun m r1 =>
    match parseSep sep r1 with
    | none => none
    | some r2 =>
      tryCands (dayCands r2) fun d r3 =>
        match parseSep sep r3 with
        | none => none
        | some r4 =>
          match parseY r4 with
          | none => none
          | some (y, r5) => if r5.isEmpty then some (y, m, d) else none

/-- One `datetime.strptime(value, fmt).date()` attempt, `none` when strptime
raises `ValueError` (no regex match, trailing data, or an invalid calendar
date). -/
def strptimeDate (fmt : String) (s : List Char) : Option (Nat × Nat × Nat) :=
  let res :=
    if fmt = "%Y-%m-%d" then parseYMD '-' s
    else if fmt = "%d-%m-%Y" then parseDMY '-' s
    else if fmt = "%d/%m/%Y" then parseDMY '/' s
    else if fmt = "%Y/%m/%d" then parseYMD '/' s
    else if fmt = "%m/%d/%Y" then parseMDY '/' s
    else none
  match res with
  | some (y, m, d) => if validDate y m d then some (y, m, d) else none
  | none => none

/-- The ordered format list of `_parse_maybe_date` (validator.py line 47). -/
def DATE_FORMATS : List String :=
  ["%Y-%m-%d", "%d-%m-%Y", "%d/%m/%Y", "%Y/%m/%d", "%m/%d/%Y"]

/-- First format that parses wins. -/
def tryFormats : List String → List Char → Option (Nat × Nat × Nat)
  | [], _ => none
  | f :: fs, s =>
    match strptimeDate f s with
    | some d => some d
    | none => tryFormats fs s

/-- Embedding of `_parse_maybe_date` (validator.py lines 32-52): `None` stays
absent, date/datetime values pass through, strings are stripped and tried
against the fixed format list. -/
def parse_maybe_date : Option DateVal → Option (Nat × Nat × Nat)
  | none => none
  | some (.parsed y m d) => some (y, m, d)
  | some (.raw s) => tryFormats DATE_FORMATS (pyStrip s.data)

/-! ## schema.py / validator.py: invoice, errors, single-invoice validation -/

/-- Embedding of the `Invoice` Pydantic model (schema.py lines 52-101). -/
structure Invoice where
  invoice_number : Option String := none
  invoice_date : Option DateVal := none
  due_date : Option DateVal := none
  seller_name : Option String := none
  seller_tax_id : Option String := none
  buyer_name : Option String := none
  buyer_tax_id : Option String := none
  currency : Option String := none
  net_total : Option ℚ := none
  tax_amount : Option ℚ := none
  gross_total : Option ℚ := none
  line_items : List InvoiceLineItem := []
deriving Repr, DecidableEq

/-- Embedding of `InvoiceValidationError` (schema.py lines 104-114). -/
structure InvoiceValidationError where
  code : String
  message : String
  field : Option String
deriving Repr, DecidableEq

/-- Embedding of `InvoiceValidationResult` (schema.py lines 117-129). -/
structure InvoiceValidationResult where
  invoice_id : Option String
  is_valid : Bool
  errors : List InvoiceValidationError
deriving Repr, DecidableEq

/-- `TOLERANCE` (validator.py line 29). -/
def TOLERANCE : ℚ := 0.5

/-- Embedding of `_almost_equal` (validator.py lines 55-61). -/
def almost_equal (a b : Option ℚ) (tol : ℚ) : Bool :=
  match a, b with
  | some a, some b => |a - b| ≤ tol
  | _, _ => false

/-- Python truthiness-based blank test used by the completeness checks:
`None`, `""` and whitespace-only strings count as blank. -/
def isBlankOpt : Option String → Bool
  | none => true
  | some s => (pyStrip s.data).isEmpty

def missingInvoiceNumberError : InvoiceValidationError :=
  { code := "MISSING_INVOICE_NUMBER"
    message := "Invoice number must not be empty."
    field := some "invoice_number" }

def invalidInvoiceDateError : InvoiceValidationError :=
  { code := "INVALID_INVOICE_DATE"
    message := "Invoice date could not be parsed."
    field := some "invoice_date" }

def missingSellerNameError : InvoiceValidationError :=
  { code := "MISSING_SELLER_NAME"
    message := "Seller name must not be empty."
    field := some "seller_name" }

def missingBuyerNameError : InvoiceValidationError :=
  { code := "MISSING_BUYER_NAME"
    message := "Buyer name must not be empty."
    field := some "buyer_name" }

def totalMismatchError : InvoiceValidationError :=
  { code := "TOTAL_MISMATCH"
    message := "net_total + tax_amount should equal gross_total within 0.5 tolerance."
    field := some "gross_total" }

def lineItemsTotalMismatchError : InvoiceValidationError :=
  { code := "LINE_ITEMS_TOTAL_MISMATCH"
    message := "Sum of line item totals should equal net_total within 0.5 tolerance."
    field := some "line_items" }

def negativeTotalError (field_name : String) : InvoiceValidationError :=
  { code := "NEGATIVE_TOTAL"
    message := field_name ++ " must not be negative."
    field := some field_name }

/-- validator.py lines 81-88: blank `invoice_number`. -/
def check_invoice_number (invoice : Invoice) : List InvoiceValidationError :=
  if isBlankOpt invoice.invoice_number then [missingInvoiceNumberError] else []

/-- validator.py lines 90-98: `invoice_date` present but unparseable. -/
def check_invoice_date (invoice : Invoice) : List InvoiceValidationError :=
  if invoice.invoice_date.isSome && (parse_maybe_date invoice.invoice_date).isNone
  then [invalidInvoiceDateError] else []

/-- validator.py lines 100-107: blank `seller_name`. -/
def check_seller_name (invoice : Invoice) : List InvoiceValidationError :=
  if isBlankOpt invoice.seller_name then [missingSellerNameError] else []

/-- validator.py lines 109-116: blank `buyer_name`. -/
def check_buyer_name (invoice : Invoice) : List InvoiceValidationError :=
  if isBlankOpt invoice.buyer_name then [missingBuyerNameError] else []

/-- validator.py lines 119-136: totals consistency when all three are present. -/
def check_totals (invoice : Invoice) : List InvoiceValidationError :=
  match invoice.net_total, invoice.tax_amount, invoice.gross_total with
  | some n, some t, some g =>
    if !(almost_equal (some (n + t)) (some g) TOLERANCE) then [totalMismatchError]
    else []
  | _, _, _ => []

/-- `sum(item.line_total or 0.0 for item in invoice.line_items if item.line_total)`
(validator.py lines 140-142): items with an absent or zero (falsy) `line_total`
are excluded from the generator by the `if` filter. -/
def line_sum (items : List InvoiceLineItem) : ℚ :=
  ((items.filter fun it =>
      match it.line_total with
      | none => false
      | some v => !(v = 0)).map fun it => it.line_total.getD 0).sum

/-- validator.py lines 139-153: line-item totals vs `net_total`. -/
def check_line_items (invoice : Invoice) : List InvoiceValidationError :=
  if !invoice.line_items.isEmpty && invoice.net_total.isSome then
    if !(almost_equal (some (line_sum invoice.line_items)) invoice.net_total
        TOLERANCE) then
      [lineItemsTotalMismatchError]
    else []
  else []

/-- One iteration of the negativity loop (validator.py lines 156-165). -/
def check_negative (v : Option ℚ) (field_name : String) :
    List InvoiceValidationError :=
  match v with
  | some x => if x < 0 then [negativeTotalError field_name] else []
  | none => []

/-- The negativity loop over `net_total`, `tax_amount`, `gross_total`, in the
source's iteration order. -/
def check_negative_totals (invoice : Invoice) : List InvoiceValidationError :=
  check_negative invoice.net_total "net_total" ++
    check_negative invoice.tax_amount "tax_amount" ++
    check_negative invoice.gross_total "gross_total"

/-- Embedding of `validate_invoice` (validator.py lines 64-172): the error
list is accumulated by the checks in the source's textual order — number,
date, seller, buyer, totals, line items, negativity — every check runs, and
`is_valid` is the emptiness of the final list. -/
def validate_invoice (invoice : Invoice) : InvoiceValidationResult :=
  let errors : List InvoiceValidationError := []
  let errors := errors ++ check_invoice_number invoice
  let errors := errors ++ check_invoice_date invoice
  let errors := errors ++ check_seller_name invoice
  let errors := errors ++ check_buyer_name invoice
  let errors := errors ++ check_totals invoice
  let errors := errors ++ check_line_items invoice
  let errors := errors ++ check_negative_totals invoice
  { invoice_id := invoice.invoice_number
    is_valid := errors.isEmpty
    errors := errors }

/-! ## Claims C1 and C5 about `validate_invoice` -/

lemma map_code_ite (c : Prop) [Decidable c] (e : InvoiceValidationError) :
    (if c then [e] else []).map (fun x => x.code) = if c then [e.code] else [] := by
  split <;> rfl

lemma mem_ite_singleton {α : Type} (x y : α) (c : Prop) [Decidable c] :
    x ∈ (if c then [y] else []) ↔ c ∧ x = y := by
  split <;> simp_all

lemma ite_and_nest {α : Type} (p q : Prop) [Decidable p] [Decidable q]
    (x : List α) :
    (if p then (if q then x else []) else ([] : List α)) =
      if p ∧ q then x else [] := by
  by_cases hp : p <;> by_cases hq : q <;> simp [hp, hq]

lemma ite_not_and_nest {α : Type} (p q : Prop) [Decidable p] [Decidable q]
    (x : List α) :
    (if p then ([] : List α) else (if q then x else [])) =
      if ¬ p ∧ q then x else [] := by
  by_cases hp : p <;> by_cases hq : q <;> simp [hp, hq]

/-- C1: `validate_invoice` reports `TOTAL_MISMATCH` exactly when `net_total`,
`tax_amount` and `gross_total` are all present and
`|net_total + tax_amount - gross_total|` exceeds the tolerance `0.5`; whenever
any of the three is absent, `TOTAL_MISMATCH` is never reported. -/
theorem total_mismatch_iff_deviation (invoice : Invoice) :
    "TOTAL_MISMATCH" ∈ (validate_invoice invoice).errors.map (fun e => e.code) ↔
      ∃ n t g : ℚ, invoice.net_total = some n ∧ invoice.tax_amount = some t ∧
        invoice.gross_total = some g ∧ TOLERANCE < |n + t - g| := by
  unfold validate_invoice
  rcases hn : invoice.net_total with _ | n <;>
    rcases ht : invoice.tax_amount with _ | t <;>
      rcases hg : invoice.gross_total with _ | g <;>
        simp [check_invoice_number, check_invoice_date, check_seller_name,
          check_buyer_name, check_totals, check_line_items, check_negative_totals,
          check_negative, almost_equal, hn, ht, hg, map_code_ite, mem_ite_singleton,
          missingInvoiceNumberError, invalidInvoiceDateError, missingSellerNameError,
          missingBuyerNameError, totalMismatchError, lineItemsTotalMismatchError,
          negativeTotalError, not_le]
  all_goals (intros; subst_vars; simp_all)

/-- An invoice whose date check and seller-name check both fire: the source
emits the date error BEFORE the seller error, since the date check sits
between the invoice-number check and the seller check. -/
def dateOrderInvoice : Invoice :=
  { invoice_number := some "INV-1"
    invoice_date := some (.raw "not a date")
    buyer_name := some "Buyer GmbH" }

/-- C5 counterexample: the claim puts all three completeness checks before the
date check, but on `dateOrderInvoice` the code emits
`INVALID_INVOICE_DATE` before `MISSING_SELLER_NAME`, so the claimed error
order `[MISSING_SELLER_NAME, INVALID_INVOICE_DATE]` does not occur. -/
theorem date_check_precedes_seller_check :
    ((validate_invoice dateOrderInvoice).errors.map fun e => e.code) =
        ["INVALID_INVOICE_DATE", "MISSING_SELLER_NAME"] ∧
      ((validate_invoice dateOrderInvoice).errors.map fun e => e.code) ≠
        ["MISSING_SELLER_NAME", "INVALID_INVOICE_DATE"] := by
  refine ⟨by decide, by decide⟩

/-- C5 (amended): `validate_invoice` runs its checks in the fixed source
order — completeness of `invoice_number`, then date parseability, then
completeness of `seller_name` and `buyer_name`, then totals consistency, then
line-item consistency, then negativity — the errors list is ordered
accordingly, all checks run with no short-circuit, and `is_valid` holds iff
the errors list is empty. -/
theorem validate_invoice_check_order (invoice : Invoice) :
    ((validate_invoice invoice).errors.map fun e => e.code) =
      (if isBlankOpt invoice.invoice_number then ["MISSING_INVOICE_NUMBER"] else []) ++
        (if invoice.invoice_date.isSome ∧ parse_maybe_date invoice.invoice_date = none
          then ["INVALID_INVOICE_DATE"] else []) ++
        (if isBlankOpt invoice.seller_name then ["MISSING_SELLER_NAME"] else []) ++
        (if isBlankOpt invoice.buyer_name then ["MISSING_BUYER_NAME"] else []) ++
        (match invoice.net_total, invoice.tax_amount, invoice.gross_total with
         | some n, some t, some g =>
           if TOLERANCE < |n + t - g| then ["TOTAL_MISMATCH"] else []
         | _, _, _ => []) ++
        (match invoice.net_total with
         | some n =>
           if invoice.line_items ≠ [] ∧
               TOLERANCE < |line_sum invoice.line_items - n| then
             ["LINE_ITEMS_TOTAL_MISMATCH"]
           else []
         | none => []) ++
        ((match invoice.net_total with
          | some x => if x < 0 then ["NEGATIVE_TOTAL"] else []
          | none => []) ++
          (match invoice.tax_amount with
           | some x => if x < 0 then ["NEGATIVE_TOTAL"] else []
           | none => []) ++
          (match invoice.gross_total with
           | some x => if x < 0 then ["NEGATIVE_TOTAL"] else []
           | none => [])) ∧
      ((validate_invoice invoice).is_valid = true ↔
        (validate_invoice invoice).errors = []) := by
  constructor
  · unfold validate_invoice
    rcases hn : invoice.net_total with _ | n <;>
      rcases ht : invoice.tax_amount with _ | t <;>
        rcases hg : invoice.gross_total with _ | g <;>
          simp [check_invoice_number, check_invoice_date, check_seller_name,
            check_buyer_name, check_totals, check_line_items, check_negative_totals,
            check_negative, almost_equal, hn, ht, hg, map_code_ite, ite_and_nest,
            missingInvoiceNumberError, invalidInvoiceDateError, missingSellerNameError,
            missingBuyerNameError, totalMismatchError, lineItemsTotalMismatchError,
            negativeTotalError, not_le, List.append_assoc,
            apply_ite (List.map (fun e : InvoiceValidationError => e.code)),
            ite_not_and_nest]
  · simp [validate_invoice, List.isEmpty_iff]

/-! ## validator.py: batch validation (`_detect_duplicates`, `validate_invoices`) -/

/-- `inv.invoice_number or None` (validator.py line 184): Python `or` collapses
the falsy string `""` to `None`. -/
def orNone : Option String → Option String
  | none => none
  | some s => if s = "" then none else some s

/-- The duplicate-detection key `(invoice_number or None, seller_name or None)`
of `_detect_duplicates` (validator.py line 184). -/
def keyOf (inv : Invoice) : Option String × Option String :=
  (orNone inv.invoice_number, orNone inv.seller_name)

/-- Number of invoices in the batch sharing a key — the counter built by
`_detect_duplicates` (validator.py lines 175-186). A key is in
`duplicate_keys` iff this count is at least 2. -/
def countKey (invoices : List Invoice) (k : Option String × Option String) : Nat :=
  invoices.countP fun inv => decide (keyOf inv = k)

def duplicateInvoiceError : InvoiceValidationError :=
  { code := "DUPLICATE_INVOICE"
    message := "Duplicate combination of invoice_number and seller_name detected across the dataset."
    field := some "invoice_number" }

/-- Embedding of `ValidationSummary` (schema.py lines 132-149). -/
structure ValidationSummary where
  total_invoices : Nat
  valid_invoices : Nat
  invalid_invoices : Nat
  top_errors : List String
deriving Repr, DecidableEq

/-- Embedding of `BulkValidationReport` (schema.py lines 152-163). -/
structure BulkValidationReport where
  results : List InvoiceValidationResult
  summary : ValidationSummary
deriving Repr, DecidableEq

/-- One `Counter` update (`error_counter[e.code] += 1`): increment the code's
count if the code was already seen, else append it with count 1 — Python dicts
(and `Counter`) preserve insertion order, so new codes go to the end. -/
def tallyError : List (String × Nat) → String → List (String × Nat)
  | [], code => [(code, 1)]
  | (c, n) :: rest, code =>
    if c = code then (c, n + 1) :: rest else (c, n) :: tallyError rest code

/-- The error counter of `validate_invoices` (validator.py lines 224-227):
insertion-ordered association list of code → frequency, built over all
results' errors in order (the nested `for` loops iterate exactly the
flattened code sequence). -/
def errorCounter (results : List InvoiceValidationResult) : List (String × Nat) :=
  (results.flatMap fun r => r.errors.map fun e => e.code).foldl tallyError []

/-- Stable insertion into a count-descending list: the new entry is placed
before the first entry whose count is `≤` its own, so entries with strictly
greater counts stay ahead and, among equal counts, the inserted (earlier)
entry goes first. -/
def insertByCount (x : String × Nat) : List (String × Nat) → List (String × Nat)
  | [] => [x]
  | y :: ys => if y.2 ≤ x.2 then x :: y :: ys else y :: insertByCount x ys

/-- Stable sort by count descending — the ordering contract of
`Counter.most_common` (equal counts keep first-encounter order). -/
def sortByCountDesc : List (String × Nat) → List (String × Nat)
  | [] => []
  | x :: xs => insertByCount x (sortByCountDesc xs)

/-- `error_counter.most_common(5)` projected to codes (validator.py line 229). -/
def most_common5 (counter : List (String × Nat)) : List String :=
  ((sortByCountDesc counter).take 5).map Prod.fst

/-- Embedding of `validate_invoices` (validator.py lines 189-238): validate
each invoice, append `DUPLICATE_INVOICE` and force `is_valid = False` when the
invoice's key is shared by at least two invoices of the batch, then build the
summary (valid = total - invalid) and the top-5 error codes. -/
def validate_invoices (invoices : List Invoice) : BulkValidationReport :=
  let per_invoice_results := invoices.map fun invoice =>
    let result := validate_invoice invoice
    if 2 ≤ countKey invoices (keyOf invoice) then
      { result with
        errors := result.errors ++ [duplicateInvoiceError]
        is_valid := false }
    else result
  let total_invoices := per_invoice_results.length
  let invalid_invoices := per_invoice_results.countP fun r => !r.is_valid
  let valid_invoices := total_invoices - invalid_invoices
  { results := per_invoice_results
    summary :=
      { total_invoices := total_invoices
        valid_invoices := valid_invoices
        invalid_invoices := invalid_invoices
        top_errors := most_common5 (errorCounter per_invoice_results) } }

/-! ## Claims C3 and C10 about duplicate detection -/

lemma duplicate_not_emitted (invoice : Invoice) :
    "DUPLICATE_INVOICE" ∉ (validate_invoice invoice).errors.map (fun e => e.code) := by
  unfold validate_invoice
  rcases hn : invoice.net_total with _ | n <;>
    rcases ht : invoice.tax_amount with _ | t <;>
      rcases hg : invoice.gross_total with _ | g <;>
        simp [check_invoice_number, check_invoice_date, check_seller_name,
          check_buyer_name, check_totals, check_line_items, check_negative_totals,
          check_negative, almost_equal, hn, ht, hg, map_code_ite, mem_ite_singleton,
          missingInvoiceNumberError, invalidInvoiceDateError, missingSellerNameError,
          missingBuyerNameError, totalMismatchError, lineItemsTotalMismatchError,
          negativeTotalError, not_le]
  all_goals (intros; subst_vars; simp_all)

lemma validate_invoices_results_getElem (invs : List Invoice) (i : Nat)
    (inv : Invoice) (hi : invs[i]? = some inv) :
    (validate_invoices invs).results[i]? = some (
      if 2 ≤ countKey invs (keyOf inv) then
        { validate_invoice inv with
          errors := (validate_invoice inv).errors ++ [duplicateInvoiceError]
          is_valid := false }
      else validate_invoice inv) := by
  simp [validate_invoices, List.getElem?_map, hi]

/-- C3: in a batch, an invoice whose `(invoice_number or None, seller_name or
None)` key occurs at least twice receives a `DUPLICATE_INVOICE` error and has
`is_valid` forced to `false`; an invoice whose key occurs exactly once keeps
its per-invoice result unchanged and carries no `DUPLICATE_INVOICE` error. -/
theorem duplicate_key_marking (invs : List Invoice) (i : Nat) (inv : Invoice)
    (hi : invs[i]? = some inv) :
    ∃ res, (validate_invoices invs).results[i]? = some res ∧
      (2 ≤ countKey invs (keyOf inv) →
        "DUPLICATE_INVOICE" ∈ res.errors.map (fun e => e.code) ∧
          res.is_valid = false) ∧
      (countKey invs (keyOf inv) = 1 →
        res = validate_invoice inv ∧
          "DUPLICATE_INVOICE" ∉ res.errors.map (fun e => e.code)) := by
  refine ⟨_, validate_invoices_results_getElem invs i inv hi, ?_, ?_⟩
  · intro h2
    rw [if_pos h2]
    constructor
    · simp [duplicateInvoiceError]
    · rfl
  · intro h1
    have hlt : ¬ 2 ≤ countKey invs (keyOf inv) := by omega
    rw [if_neg hlt]
    exact ⟨rfl, duplicate_not_emitted inv⟩

/-- The spec's duplicate-detection example: two invoices with identical
`(invoice_number = "INV-1", seller_name = "Acme")` and a third with the same
number but a different seller. -/
def dupSampleInvoice : Invoice :=
  { invoice_number := some "INV-1"
    seller_name := some "Acme"
    buyer_name := some "Buyer" }

def dupSampleBatch : List Invoice :=
  [dupSampleInvoice, dupSampleInvoice,
   { invoice_number := some "INV-1"
     seller_name := some "Someone else"
     buyer_name := some "Buyer" }]

/-- Witness for C3 at a concrete batch: the first of the two key-sharing
invoices is marked as a duplicate and invalid. -/
theorem duplicate_key_marking_witness :
    ∃ res, (validate_invoices dupSampleBatch).results[0]? = some res ∧
      (2 ≤ countKey dupSampleBatch (keyOf dupSampleInvoice) →
        "DUPLICATE_INVOICE" ∈ res.errors.map (fun e => e.code) ∧
          res.is_valid = false) ∧
      (countKey dupSampleBatch (keyOf dupSampleInvoice) = 1 →
        res = validate_invoice dupSampleInvoice ∧
          "DUPLICATE_INVOICE" ∉ res.errors.map (fun e => e.code)) :=
  duplicate_key_marking dupSampleBatch 0 dupSampleInvoice rfl

/-- "absent or empty": `None` or `""`. -/
def blankStr : Option String → Bool
  | none => true
  | some s => s = ""

lemma blank_key_eq (o : Invoice) :
    (blankStr o.invoice_number && blankStr o.seller_name) =
      decide (keyOf o = (none, none)) := by
  rcases hn : o.invoice_number with _ | s1 <;>
    rcases hs : o.seller_name with _ | s2 <;>
      simp [blankStr, keyOf, orNone, hn, hs]

/-- C10: the duplicate key collapses empty-string `invoice_number` or
`seller_name` to absent, so in a batch with at least two invoices whose
`invoice_number` and `seller_name` are each absent or empty, every such
invoice gets a `DUPLICATE_INVOICE` error and `is_valid = false`. -/
theorem blank_key_duplicate_marking (invs : List Invoice)
    (hm : 2 ≤ invs.countP fun o => blankStr o.invoice_number && blankStr o.seller_name)
    (i : Nat) (inv : Invoice) (hi : invs[i]? = some inv)
    (hk : blankStr inv.invoice_number = true ∧ blankStr inv.seller_name = true) :
    ∃ res, (validate_invoices invs).results[i]? = some res ∧
      "DUPLICATE_INVOICE" ∈ res.errors.map (fun e => e.code) ∧
        res.is_valid = false := by
  have hkey : keyOf inv = (none, none) := by
    have := blank_key_eq inv
    rw [hk.1, hk.2] at this
    simpa using this.symm
  have hcnt : 2 ≤ countKey invs (keyOf inv) := by
    rw [hkey]
    unfold countKey
    have hfun : (fun o : Invoice => blankStr o.invoice_number && blankStr o.seller_name)
        = fun o : Invoice => decide (keyOf o = (none, none)) :=
      funext blank_key_eq
    rw [hfun] at hm
    exact hm
  refine ⟨_, validate_invoices_results_getElem invs i inv hi, ?_⟩
  rw [if_pos hcnt]
  constructor
  · simp [duplicateInvoiceError]
  · rfl

/-- A batch of two key-blank invoices: one with both fields absent, one with
both fields present but empty. -/
def blankPairBatch : List Invoice :=
  [{ buyer_name := some "Buyer" },
   { invoice_number := some ""
     seller_name := some ""
     buyer_name := some "Buyer" }]

/-- Witness for C10 at a concrete batch: the empty-string invoice shares the
collapsed `(None, None)` key with the all-absent invoice and is marked. -/
theorem blank_key_duplicate_marking_witness :
    ∃ res, (validate_invoices blankPairBatch).results[1]? = some res ∧
      "DUPLICATE_INVOICE" ∈ res.errors.map (fun e => e.code) ∧
        res.is_valid = false :=
  blank_key_duplicate_marking blankPairBatch (by decide) 1
    { invoice_number := some ""
      seller_name := some ""
      buyer_name := some "Buyer" } rfl (by decide)

lemma mem_insertByCount (z x : String × Nat) (l : List (String × Nat)) :
    z ∈ insertByCount x l ↔ z = x ∨ z ∈ l := by
  induction l with
  | nil => simp [insertByCount]
  | cons y ys ih =>
    simp only [insertByCount]
    split
    · simp
    · simp [ih]
      tauto

lemma pairwise_insertByCount (x : String × Nat) (l : List (String × Nat))
    (h : l.Pairwise fun a b => b.2 ≤ a.2) :
    (insertByCount x l).Pairwise fun a b => b.2 ≤ a.2 := by
  induction l with
  | nil => simp [insertByCount]
  | cons y ys ih =>
    rcases List.pairwise_cons.mp h with ⟨hy, hys⟩
    simp only [insertByCount]
    by_cases hc : y.2 ≤ x.2
    · rw [if_pos hc]
      refine List.pairwise_cons.mpr ⟨?_, h⟩
      intro z hz
      rcases List.mem_cons.mp hz with hz | hz
      · subst hz; exact hc
      · exact le_trans (hy z hz) hc
    · rw [if_neg hc]
      refine List.pairwise_cons.mpr ⟨?_, ih hys⟩
      intro z hz
      rcases (mem_insertByCount z x ys).mp hz with hz | hz
      · subst hz; omega
      · exact hy z hz

lemma sortByCountDesc_sorted (l : List (String × Nat)) :
    (sortByCountDesc l).Pairwise fun a b => b.2 ≤ a.2 := by
  induction l with
  | nil => simp [sortByCountDesc]
  | cons x xs ih => exact pairwise_insertByCount x (sortByCountDesc xs) ih

lemma filter_insertByCount (x : String × Nat) (l : List (String × Nat)) (n : Nat) :
    (insertByCount x l).filter (fun p => decide (p.2 = n)) =
      if x.2 = n then x :: l.filter (fun p => decide (p.2 = n))
      else l.filter (fun p => decide (p.2 = n)) := by
  induction l with
  | nil => by_cases hx : x.2 = n <;> simp [insertByCount, hx]
  | cons y ys ih =>
    simp only [insertByCount]
    by_cases hc : y.2 ≤ x.2
    · rw [if_pos hc]
      by_cases hx : x.2 = n <;> simp [List.filter_cons, hx]
    · rw [if_neg hc]
      by_cases hy : y.2 = n
      · have hx : ¬ x.2 = n := by omega
        simp [List.filter_cons, hy, hx, ih]
      · simp [List.filter_cons, hy, ih]

lemma sortByCountDesc_filter (l : List (String × Nat)) (n : Nat) :
    (sortByCountDesc l).filter (fun p => decide (p.2 = n)) =
      l.filter (fun p => decide (p.2 = n)) := by
  induction l with
  | nil => simp [sortByCountDesc]
  | cons x xs ih =>
    simp only [sortByCountDesc, filter_insertByCount, ih, List.filter_cons]
    by_cases hx : x.2 = n <;> simp [hx]

def lookupCount (counter : List (String × Nat)) (code : String) : Nat :=
  match counter with
  | [] => 0
  | (c, n) :: rest => if c = code then n else lookupCount rest code

lemma lookupCount_tallyError (acc : List (String × Nat)) (c code : String) :
    lookupCount (tallyError acc c) code =
      lookupCount acc code + if c = code then 1 else 0 := by
  induction acc with
  | nil =>
    by_cases h : c = code <;> simp [tallyError, lookupCount, h]
  | cons y ys ih =>
    rcases y with ⟨c', n'⟩
    simp only [tallyError]
    by_cases h1 : c' = c
    · rw [if_pos h1]
      subst h1
      by_cases h2 : c' = code <;> simp [lookupCount, h2]
    · rw [if_neg h1]
      by_cases h2 : c' = code
      · subst h2
        have : ¬ c = c' := fun h => h1 h.symm
        simp [lookupCount, this]
      · simp [lookupCount, h2, ih]

lemma lookupCount_foldl (cs : List String) (acc : List (String × Nat)) (code : String) :
    lookupCount (cs.foldl tallyError acc) code =
      lookupCount acc code + cs.count code := by
  induction cs generalizing acc with
  | nil => simp
  | cons c cs ih =>
    simp only [List.foldl_cons, ih, lookupCount_tallyError, List.count_cons]
    by_cases h : c = code
    · simp [h]
      omega
    · simp [h]

def firstEnc (seen : List String) : List String → List String
  | [] => []
  | c :: cs => if c ∈ seen then firstEnc seen cs else c :: firstEnc (seen ++ [c]) cs

lemma keys_tallyError (acc : List (String × Nat)) (c : String) :
    (tallyError acc c).map Prod.fst =
      if c ∈ acc.map Prod.fst then acc.map Prod.fst else acc.map Prod.fst ++ [c] := by
  induction acc with
  | nil => simp [tallyError]
  | cons y ys ih =>
    rcases y with ⟨c', n'⟩
    simp only [tallyError]
    by_cases h1 : c' = c
    · subst h1
      simp
    · have h2 : ¬ c = c' := fun h => h1 h.symm
      simp [h1, h2, ih]
      by_cases h3 : c ∈ ys.map Prod.fst <;> simp [h3, h2]

lemma keys_foldl (cs : List String) (acc : List (String × Nat)) :
    (cs.foldl tallyError acc).map Prod.fst =
      acc.map Prod.fst ++ firstEnc (acc.map Prod.fst) cs := by
  induction cs generalizing acc with
  | nil => simp [firstEnc]
  | cons c cs ih =>
    simp only [List.foldl_cons, firstEnc]
    by_cases h : c ∈ acc.map Prod.fst
    · rw [if_pos h, ih, keys_tallyError, if_pos h]
    · rw [if_neg h, ih, keys_tallyError, if_neg h]
      simp

/-- C4: for every batch, the summary satisfies
`total_invoices = valid_invoices + invalid_invoices`; `top_errors` has length
at most 5 and is the 5-prefix of the count-descending stable sort of the
insertion-ordered error counter: its counts are exactly the error-code
frequencies over all per-invoice results, its key order is the
first-encounter order of the codes, the sort is non-increasing in frequency,
and the sort preserves, for every frequency, the first-encounter order of the
codes having that frequency (tie-break by first encounter). -/
theorem batch_summary_invariants (invoices : List Invoice) :
    ((validate_invoices invoices).summary.total_invoices =
        (validate_invoices invoices).summary.valid_invoices +
          (validate_invoices invoices).summary.invalid_invoices) ∧
      (validate_invoices invoices).summary.top_errors.length ≤ 5 ∧
      (validate_invoices invoices).summary.top_errors =
        ((sortByCountDesc (errorCounter (validate_invoices invoices).results)).take
          5).map Prod.fst ∧
      (sortByCountDesc (errorCounter (validate_invoices invoices).results)).Pairwise
        (fun a b => b.2 ≤ a.2) ∧
      (∀ n : Nat,
        (sortByCountDesc (errorCounter (validate_invoices invoices).results)).filter
            (fun p => decide (p.2 = n)) =
          (errorCounter (validate_invoices invoices).results).filter
            (fun p => decide (p.2 = n))) ∧
      (∀ code : String,
        lookupCount (errorCounter (validate_invoices invoices).results) code =
          ((validate_invoices invoices).results.flatMap fun r =>
            r.errors.map fun e => e.code).count code) ∧
      (errorCounter (validate_invoices invoices).results).map Prod.fst =
        firstEnc [] ((validate_invoices invoices).results.flatMap fun r =>
          r.errors.map fun e => e.code) := by
  refine ⟨?_, ?_, ?_, ?_, ?_, ?_, ?_⟩
  · have hle : (validate_invoices invoices).results.countP (fun r => !r.is_valid) ≤
        (validate_invoices invoices).results.length := List.countP_le_length _
    simp only [validate_invoices] at *
    omega
  · simp only [validate_invoices, most_common5]
    calc (((sortByCountDesc _).take 5).map Prod.fst).length
        = ((sortByCountDesc _).take 5).length := by rw [List.length_map]
      _ ≤ 5 := List.length_take_le 5 _
  · rfl
  · exact sortByCountDesc_sorted _
  · exact fun n => sortByCountDesc_filter _ n
  · intro code
    have h := lookupCount_foldl ((validate_invoices invoices).results.flatMap fun r =>
      r.errors.map fun e => e.code) [] code
    simpa [errorCounter, lookupCount] using h
  · have h := keys_foldl ((validate_invoices invoices).results.flatMap fun r =>
      r.errors.map fun e => e.code) []
    simpa [errorCounter] using h

/-! ## extractor.py: `_parse_line_items` -/

/-- Whether a character list starts with a digit (the regex lookahead that
decides if a separator begins a fractional part). -/
def headIsDigit : List Char → Bool
  | [] => false
  | c :: _ => c.isDigit

/-- Left-to-right maximal-munch scanner implementing
`re.findall(r"([0-9]+(?:[.,][0-9]+)?)", ln)` (extractor.py line 322): a token
is a maximal digit run, optionally extended by one `.`/`,` separator when a
digit follows it. The state carries the current (reversed) token and whether
its separator was already consumed. -/
def findNumsGo : List Char → Option (List Char × Bool) → List (List Char)
  | [], st =>
    (match st with
     | some (cur, _) => [cur.reverse]
     | none => [])
  | c :: cs, st =>
    match st with
    | none =>
      if c.isDigit then findNumsGo cs (some ([c], false)) else findNumsGo cs none
    | some (cur, hasSep) =>
      if c.isDigit then findNumsGo cs (some (c :: cur, hasSep))
      else if !hasSep && (c = '.' || c = ',') && headIsDigit cs then
        findNumsGo cs (some (c :: cur, true))
      else cur.reverse :: findNumsGo cs none

/-- All numeric tokens of a line, in order (`re.findall`). -/
def findNums (s : List Char) : List (List Char) := findNumsGo s none

/-- The same scan dropping the tokens and keeping every other character:
`re.sub(r"[0-9]+(?:[.,][0-9]+)?", "", ln)` (extractor.py line 326). -/
def removeNumsGo : List Char → Option Bool → List Char
  | [], _ => []
  | c :: cs, st =>
    match st with
    | none =>
      if c.isDigit then removeNumsGo cs (some false) else c :: removeNumsGo cs none
    | some hasSep =>
      if c.isDigit then removeNumsGo cs (some hasSep)
      else if !hasSep && (c = '.' || c = ',') && headIsDigit cs then
        removeNumsGo cs (some true)
      else c :: removeNumsGo cs none

/-- The line with its numeric tokens removed (`re.sub`). -/
def removeNums (s : List Char) : List Char := removeNumsGo s none

/-- extractor.py line 48. -/
def EN_TOTAL_KEYWORDS : List String := ["total", "subtotal", "grand total", "amount due"]

/-- extractor.py line 49. -/
def DE_TOTAL_KEYWORDS : List String :=
  ["gesamtwert", "gesamtbetrag", "betrag", "gesamt", "gesamtwert inkl",
   "gesamtwert inkl. mwst"]

/-- extractor.py line 51. -/
def EN_VAT_KEYWORDS : List String := ["tax", "vat"]

/-- extractor.py line 52. -/
def DE_VAT_KEYWORDS : List String := ["mwst", "umsatzsteuer"]

/-- Header detection (extractor.py lines 299-309) on the lowercased line. -/
def isHeaderLine (lang : String) (low : List Char) : Bool :=
  if lang = "de" then
    (containsSub "pos".data low && containsSub "artikel".data low) ||
      (containsSub "artikelbeschreibung".data low && containsSub "preis".data low) ||
      (containsSub "menge".data low && containsSub "bestellwert".data low)
  else
    (containsSub "description".data low && containsSub "price".data low) ||
      (containsSub "quantity".data low && containsSub "description".data low)

/-- The totals/VAT break condition (extractor.py lines 315-319) on the
lowercased line; only the `de` and `en` tags ever stop. -/
def isStopLine (lang : String) (low : List Char) : Bool :=
  (lang = "de" && (DE_TOTAL_KEYWORDS ++ DE_VAT_KEYWORDS ++ ["gesamt"]).any
      fun k => containsSub k.data low) ||
    (lang = "en" && (EN_TOTAL_KEYWORDS ++ EN_VAT_KEYWORDS ++ ["total"]).any
      fun k => containsSub k.data low)

/-- Index of the LAST occurrence of `tok` as a sublist of the argument. -/
def lastOccIdx (tok : List Char) : List Char → Option Nat
  | [] => if tok.isEmpty then some 0 else none
  | c :: cs =>
    match lastOccIdx tok cs with
    | some i => some (i + 1)
    | none => if listStartsWith tok (c :: cs) then some 0 else none

/-- `ln.rsplit(tok, 1)[0]`: everything before the last occurrence of `tok`
(the whole string when `tok` does not occur). -/
def beforeLastOcc (tok s : List Char) : List Char :=
  match lastOccIdx tok s with
  | some i => s.take i
  | none => s

/-- The residual description of a candidate line (extractor.py lines
326-330): the line with numeric tokens removed and `\" -:|,.\"` stripped at
both ends; when that is empty, the fallback
`ln.rsplit(nums[-1], 1)[0].strip()`. -/
def residualDesc (ln : List Char) (nums : List (List Char)) : List Char :=
  let desc := pyStripSet " -:|,.".data (removeNums ln)
  if desc.isEmpty then pyStrip (beforeLastOcc (nums.getLastD []) ln) else desc

/-- One candidate line (extractor.py lines 321-353): with at least one
numeric token, a parseable first token (→ quantity) and a non-empty
fallback-resolved description, an item is appended; second token (if any) →
unit_price, third (if any) → line_total, and construction runs the Pydantic
`compute_line_total` validator. -/
def parseItemLine (lang : String) (ln : List Char) : Option InvoiceLineItem :=
  match findNums ln with
  | [] => none
  | n0 :: _ =>
    let nums := findNums ln
    let desc := residualDesc ln nums
    match normalize_number (String.mk n0) lang with
    | some qty =>
      if desc.isEmpty then none
      else
        some (mkInvoiceLineItem (some (String.mk desc)) (some qty)
          ((nums.get? 1).bind fun tk => normalize_number (String.mk tk) lang)
          ((nums.get? 2).bind fun tk => normalize_number (String.mk tk) lang))
    | none => none

/-- The loop over candidate lines after the header, with the totals-block
`break` (extractor.py lines 313-356). -/
def parse_item_lines (lang : String) : List (List Char) → List InvoiceLineItem
  | [] => []
  | ln :: rest =>
    if isStopLine lang (pyLower ln) then []
    else
      match parseItemLine lang ln with
      | some item => item :: parse_item_lines lang rest
      | none => parse_item_lines lang rest

/-- Embedding of `_parse_line_items` (extractor.py lines 290-358): strip
and drop blank lines, find the header line, parse the lines after it. -/
def parse_line_items (text : String) (lang : String) : List InvoiceLineItem :=
  let lines := ((splitLines text.data).map pyStrip).filter fun l => !l.isEmpty
  let start :=
    match lines.findIdx? (fun ln => isHeaderLine lang (pyLower ln)) with
    | some i => i + 1
    | none => 0
  parse_item_lines lang (lines.drop start)

example : findNums "Widget 5".data = [['5']] := by decide
example : findNums "ab 1.2.3 x 12,34".data = [['1','.','2'],['3'],['1','2',',','3','4']] := by decide
example : removeNums "Widget 5".data = "Widget ".data := by decide
example : residualDesc "1 2".data (findNums "1 2".data) = ['1'] := by decide
example : residualDesc "5".data (findNums "5".data) = [] := by decide
example : (parse_line_items "description price
Widget 5" "en").length = 1 := by decide


/-- C6 counterexample: inside the detected table region, the line
`"Widget 5"` has exactly ONE numeric token, yet `_parse_line_items` produces a
line item for it (description `"Widget"`), contradicting the claimed
two-numeric-token minimum. -/
theorem single_token_line_in_region :
    (findNums "Widget 5".data).length = 1 ∧
      (parse_line_items "description price\nWidget 5" "en").length = 1 ∧
      (parse_line_items "description price\nWidget 5" "en").map
          (fun it => it.description) = [some "Widget"] := by
  refine ⟨by decide, by decide, by decide⟩

/-- C6 (amended): per candidate line inside the table region (the maximal
prefix with no totals/VAT stop keyword), a line item is produced iff the line
has at least ONE numeric token, its first token normalizes, and the residual
description — with the source's fallback to the text before the last numeric
token when removal-and-trimming leaves nothing — is non-empty; the first
token becomes the quantity, the second (when present) the unit price and the
third (when present) the line total, re-derived through the construction
validator. -/
theorem line_item_region_characterization :
    (∀ (lang : String) (lns : List (List Char)),
      parse_item_lines lang lns =
        (lns.takeWhile fun ln => !isStopLine lang (pyLower ln)).filterMap
          (parseItemLine lang)) ∧
    (∀ (lang : String) (ln : List Char),
      (parseItemLine lang ln).isSome ↔
        findNums ln ≠ [] ∧ residualDesc ln (findNums ln) ≠ [] ∧
          ((findNums ln).head?.bind fun tk =>
            normalize_number (String.mk tk) lang).isSome) ∧
    (∀ (lang : String) (ln : List Char) (item : InvoiceLineItem),
      parseItemLine lang ln = some item →
        item.description = some (String.mk (residualDesc ln (findNums ln))) ∧
          item.quantity = ((findNums ln).head?.bind fun tk =>
            normalize_number (String.mk tk) lang) ∧
          item.unit_price = (((findNums ln).get? 1).bind fun tk =>
            normalize_number (String.mk tk) lang) ∧
          item.line_total = compute_line_total
            (((findNums ln).get? 2).bind fun tk =>
              normalize_number (String.mk tk) lang)
            item.quantity item.unit_price) := by
  refine ⟨?_, ?_, ?_⟩
  · intro lang lns
    induction lns with
    | nil => rfl
    | cons ln rest ih =>
      simp only [parse_item_lines, List.takeWhile_cons]
      by_cases h : isStopLine lang (pyLower ln)
      · simp [h]
      · simp only [h, Bool.not_false, if_neg, if_pos, List.filterMap_cons]
        rcases hp : parseItemLine lang ln with _ | item <;> simp [hp, ih]
  · intro lang ln
    unfold parseItemLine
    rcases hn : findNums ln with _ | ⟨n0, ns⟩
    · simp
    · simp only [hn, List.head?_cons, Option.some_bind, ne_eq]
      rcases hq : normalize_number (String.mk n0) lang with _ | qty
      · simp [hq]
      · by_cases hd : residualDesc ln (n0 :: ns) = []
        · simp [hq, hd]
        · simp [hq, hd, List.isEmpty_iff]
  · intro lang ln item h
    unfold parseItemLine at h
    rcases hn : findNums ln with _ | ⟨n0, ns⟩ <;> rw [hn] at h
    · cases h
    · dsimp only at h
      rcases hq : normalize_number (String.mk n0) lang with _ | qty <;> rw [hq] at h
      · cases h
      · dsimp only at h
        by_cases hd : (residualDesc ln (n0 :: ns)).isEmpty
        · rw [if_pos hd] at h
          cases h
        · rw [if_neg hd] at h
          injection h with h
          subst h
          simp [mkInvoiceLineItem, hn, hq]

/-! ## extractor.py: currency assignment and the text-extraction fallback -/

/-- The currency assignment of `extract_invoice_from_pdf` (extractor.py line
418): `"EUR" if "eur" in text.lower() or "€" in text else None`. -/
def extract_currency (text : String) : Option String :=
  if containsSub "eur".data (pyLower text.data) || text.data.contains '€' then
    some "EUR"
  else none

/-- C8 counterexample: a text containing the known 3-letter code `USD` as a
token (and no `eur`/euro sign) gets NO currency — the extractor never detects
any code other than EUR. -/
theorem usd_token_not_detected :
    extract_currency "Total: 100 USD" = none ∧
      containsSub "usd".data (pyLower "Total: 100 USD".data) = true := by
  refine ⟨by decide, by decide⟩

/-- C8 (amended): the assembled invoice's currency is `EUR` exactly when
`"eur"` occurs (case-insensitively) in the text or a euro sign occurs in the
text, and is absent otherwise; no other currency code is ever detected. -/
theorem currency_eur_or_absent (text : String) :
    (extract_currency text = some "EUR" ∨ extract_currency text = none) ∧
      (extract_currency text = some "EUR" ↔
        (containsSub "eur".data (pyLower text.data) ||
          text.data.contains '€') = true) := by
  unfold extract_currency
  by_cases h : (containsSub "eur".data (pyLower text.data) ||
      text.data.contains '€') = true
  · rw [if_pos h]
    exact ⟨Or.inl rfl, ⟨fun _ => h, fun _ => rfl⟩⟩
  · rw [if_neg h]
    refine ⟨Or.inr rfl, ?_, fun hcond => absurd hcond h⟩
    intro habs
    cases habs

/-- Embedding of `_extract_text_with_fallbacks` (extractor.py lines 364-377),
as a function of the text produced by the layout-aware/plain tiers and the
text OCR would produce; the Boolean records whether the OCR fallback was
invoked: the tier-1/2 text is accepted only when it is truthy AND its
stripped length is strictly greater than 20. -/
def extract_text_with_fallbacks (layout_text ocr_text : String) : Bool × String :=
  if ¬ layout_text = "" ∧ 20 < (pyStrip layout_text.data).length then
    (false, layout_text)
  else (true, ocr_text)

def twentyChars : String := "aaaaaaaaaaaaaaaaaaaa"

/-- C9 counterexample: a tier-1/2 text of exactly 20 non-blank characters is
neither empty nor shorter than 20 characters after trimming, yet the pipeline
still invokes OCR — the source requires STRICTLY more than 20 characters. -/
theorem twenty_char_text_goes_to_ocr :
    (extract_text_with_fallbacks twentyChars "ocr result").fst = true ∧
      ¬ twentyChars = "" ∧ ¬ (pyStrip twentyChars.data).length < 20 := by
  refine ⟨by decide, by decide, by decide⟩

/-- C9 (amended): the OCR fallback is invoked iff the tier-1/2 text, after
trimming, has AT MOST 20 characters (in particular when it is empty);
otherwise that text is returned unchanged without OCR. -/
theorem ocr_fallback_iff_short (layout_text ocr_text : String) :
    ((extract_text_with_fallbacks layout_text ocr_text).fst = true ↔
        (pyStrip layout_text.data).length ≤ 20) ∧
      ((extract_text_with_fallbacks layout_text ocr_text).fst = false →
        (extract_text_with_fallbacks layout_text ocr_text).snd = layout_text) ∧
      ((extract_text_with_fallbacks layout_text ocr_text).fst = true →
        (extract_text_with_fallbacks layout_text ocr_text).snd = ocr_text) := by
  unfold extract_text_with_fallbacks
  by_cases h : ¬ layout_text = "" ∧ 20 < (pyStrip layout_text.data).length
  · rw [if_pos h]
    have hgt := h.2
    refine ⟨?_, fun _ => rfl, fun hf => by simp at hf⟩
    simp
    omega
  · rw [if_neg h]
    refine ⟨?_, fun hf => by simp at hf, fun _ => rfl⟩
    have hle : (pyStrip layout_text.data).length ≤ 20 := by
      by_cases he : layout_text = ""
      · subst he
        decide
      · by_contra hgt
        exact h ⟨he, by omega⟩
    simp [hle]

end InvoiceQC
